import Mathlib

/-!
Verification of the account risk-scoring and relationship pipeline of the
Solana Ghost-Code Detective repository.

Modelling conventions (shallow embedding of the TypeScript source):
* JavaScript numbers are IEEE-754 doubles; balances, weights, thresholds and
  scores are modelled as exact rationals (`ℚ`).  Every property checked below
  concerns comparisons or algebraic identities that do not depend on rounding.
* Slot counters are modelled as `ℤ` so that `currentSlot - lastWriteSlot`
  behaves like JavaScript subtraction.
* Addresses and public keys are strings, as in the source.
* Optional values (`lastWriteSlot?: number`, `seeds?: string[]`) become
  `Option`.  JavaScript truthiness tests are translated faithfully: in
  particular `!account.lastWriteSlot` is true both for an absent slot and for
  slot `0`, and `account.seeds` (an array) is truthy even when empty.
* Console logging, spinner output and the human-readable `reason` strings of
  risk indicators are presentation-only and elided; an indicator is modelled
  by its `type` and `weight`.
-/

/-- `Math.min` on rationals; written out with a decidable test so that
concrete profiles evaluate by kernel reduction. -/
def jsMin (a b : ℚ) : ℚ :=
  if a ≤ b then a else b

/-- `Math.max` on rationals. -/
def jsMax (a b : ℚ) : ℚ :=
  if a ≤ b then b else a

theorem jsMin_eq_min (a b : ℚ) : jsMin a b = min a b := by
  simp [jsMin, min_def]

theorem jsMax_eq_max (a b : ℚ) : jsMax a b = max a b := by
  rcases le_or_lt a b with h | h
  · rw [jsMax, if_pos h, max_eq_right h]
  · rw [jsMax, if_neg (not_le.mpr h), max_eq_left h.le]

/-- Risk levels, totally ordered Low < Medium < High < Critical
(`RiskLevel` in `src/scanner/types.ts`). -/
inductive RiskLevel where
  | Low
  | Medium
  | High
  | Critical
deriving DecidableEq, Repr

/-- The `type` field of a risk indicator. -/
inductive IndicatorType where
  | inactivity
  | authority_mismatch
  | orphaned_pda
  | rent_recoverable
  | legacy_authority
deriving DecidableEq, Repr

/-- A risk indicator (`RiskIndicator` in `src/scanner/types.ts`); the
human-readable `reason` string is presentation-only and elided. -/
structure RiskIndicator where
  type : IndicatorType
  weight : ℚ
deriving DecidableEq, Repr

/-- A classified account (`PDAccountInfo & { lastWriteSlot?: number }`):
the fields consumed by the analysis pipeline. -/
structure PDAccountInfo where
  pubkey : String
  owner : String
  lamports : ℚ
  isPDA : Bool
  seeds : Option (List String)
  bump : Option ℕ
  lastWriteSlot : Option ℤ
deriving DecidableEq, Repr

/-- The risk profile produced per account (`AccountRiskProfile`). -/
structure AccountRiskProfile where
  pubkey : String
  riskLevel : RiskLevel
  confidenceScore : ℚ
  indicators : List RiskIndicator
  estimatedRecoverableSOL : ℚ
deriving DecidableEq, Repr

/-- `RiskScoringWeights` from `src/analysis/ghost-detector.ts`. -/
structure RiskScoringWeights where
  inactivity : ℚ
  authorityMismatch : ℚ
  orphanedPda : ℚ
  rentRecoverable : ℚ
deriving DecidableEq, Repr

/-- `RiskThresholds` from `src/analysis/ghost-detector.ts`. -/
structure RiskThresholds where
  low : ℚ
  medium : ℚ
  high : ℚ
  critical : ℚ
deriving DecidableEq, Repr

/-- The state of a `GhostDetector` instance (its constructor arguments). -/
structure GhostDetector where
  currentSlot : ℤ
  inactiveSlotThreshold : ℤ
  weights : RiskScoringWeights
  thresholds : RiskThresholds
deriving DecidableEq, Repr

namespace GhostDetector

/-- `checkInactivity` from `src/analysis/ghost-detector.ts`.  The source
guard `!account.lastWriteSlot` is JavaScript falsiness: it fires when the
slot is absent and also when it equals `0`. -/
def checkInactivity (d : GhostDetector) (account : PDAccountInfo) :
    Option RiskIndicator :=
  match account.lastWriteSlot with
  | none => some ⟨IndicatorType.inactivity, d.weights.inactivity * 100⟩
  | some s =>
    if s = 0 then
      some ⟨IndicatorType.inactivity, d.weights.inactivity * 100⟩
    else
      let inactiveSince := d.currentSlot - s
      if inactiveSince > d.inactiveSlotThreshold then
        some ⟨IndicatorType.inactivity, d.weights.inactivity * 100⟩
      else
        none

/-- `checkOrphanedPDA` from `src/analysis/ghost-detector.ts`.  The guard
`!account.seeds || account.seeds.length === 0` fires when the seed list is
absent or empty. -/
def checkOrphanedPDA (d : GhostDetector) (account : PDAccountInfo) :
    Option RiskIndicator :=
  if !account.isPDA then
    none
  else if account.seeds = none ∨ account.seeds = some [] then
    some ⟨IndicatorType.orphaned_pda, d.weights.orphanedPda * 100⟩
  else
    none

/-- `checkRentRecoverable` from `src/analysis/ghost-detector.ts`. -/
def checkRentRecoverable (d : GhostDetector) (account : PDAccountInfo)
    (minRentExemptBalance : ℚ) : Option RiskIndicator :=
  let recoverableAmount := account.lamports - minRentExemptBalance
  if recoverableAmount > 0 then
    let recoverableSOL := recoverableAmount / 1e9
    some ⟨IndicatorType.rent_recoverable,
      d.weights.rentRecoverable * jsMin 100 (recoverableSOL * 10)⟩
  else
    none

/-- `determineRiskLevel` from `src/analysis/ghost-detector.ts`. -/
def determineRiskLevel (d : GhostDetector) (confidenceScore : ℚ) : RiskLevel :=
  if confidenceScore ≥ d.thresholds.critical then
    RiskLevel.Critical
  else if confidenceScore ≥ d.thresholds.high then
    RiskLevel.High
  else if confidenceScore ≥ d.thresholds.medium then
    RiskLevel.Medium
  else
    RiskLevel.Low

/-- `calculateRecoverableSOL` from `src/analysis/ghost-detector.ts`. -/
def calculateRecoverableSOL (account : PDAccountInfo)
    (minRentExemptBalance : ℚ) (riskLevel : RiskLevel) : ℚ :=
  if riskLevel = RiskLevel.High ∨ riskLevel = RiskLevel.Critical then
    jsMax 0 (account.lamports - minRentExemptBalance) / 1e9
  else
    0

/-- `generateRiskProfile` from `src/analysis/ghost-detector.ts`: collect the
three indicator checks in source order, sum their weights, cap at 100, map to
a risk level and estimate the recoverable balance. -/
def generateRiskProfile (d : GhostDetector) (account : PDAccountInfo)
    (minRentExemptBalance : ℚ) : AccountRiskProfile :=
  let indicators :=
    [d.checkInactivity account,
     d.checkOrphanedPDA account,
     d.checkRentRecoverable account minRentExemptBalance].filterMap id
  let totalWeight := (indicators.map RiskIndicator.weight).sum
  let confidenceScore := jsMin 100 totalWeight
  let riskLevel := d.determineRiskLevel confidenceScore
  let estimatedRecoverableSOL :=
    calculateRecoverableSOL account minRentExemptBalance riskLevel
  { pubkey := account.pubkey
    riskLevel := riskLevel
    confidenceScore := confidenceScore
    indicators := indicators
    estimatedRecoverableSOL := estimatedRecoverableSOL }

end GhostDetector

/-- C1: in every risk profile produced by `generateRiskProfile`, a positive
`estimatedRecoverableSOL` forces risk level High or Critical; at High or
Critical the estimate equals `max 0 (lamports − minRentExemptBalance) / 1e9`;
and at Low or Medium it equals `0` even when a rent-recoverable indicator was
emitted. -/
theorem c1_recoverable_only_when_high_or_critical
    (d : GhostDetector) (account : PDAccountInfo) (minRent : ℚ) :
    (0 < (d.generateRiskProfile account minRent).estimatedRecoverableSOL →
      (d.generateRiskProfile account minRent).riskLevel = RiskLevel.High ∨
      (d.generateRiskProfile account minRent).riskLevel = RiskLevel.Critical) ∧
    ((d.generateRiskProfile account minRent).riskLevel = RiskLevel.High ∨
      (d.generateRiskProfile account minRent).riskLevel = RiskLevel.Critical →
      (d.generateRiskProfile account minRent).estimatedRecoverableSOL =
        jsMax 0 (account.lamports - minRent) / 1e9) ∧
    ((d.generateRiskProfile account minRent).riskLevel = RiskLevel.Low ∨
      (d.generateRiskProfile account minRent).riskLevel = RiskLevel.Medium →
      (d.generateRiskProfile account minRent).estimatedRecoverableSOL = 0) := by
  have hrec :
      (d.generateRiskProfile account minRent).estimatedRecoverableSOL =
        GhostDetector.calculateRecoverableSOL account minRent
          (d.generateRiskProfile account minRent).riskLevel := by
    simp [GhostDetector.generateRiskProfile]
  refine ⟨?_, ?_, ?_⟩
  · intro hpos
    rw [hrec] at hpos
    rcases hL : (d.generateRiskProfile account minRent).riskLevel with _ | _ | _ | _
    · rw [hL] at hpos
      simp [GhostDetector.calculateRecoverableSOL] at hpos
    · rw [hL] at hpos
      simp [GhostDetector.calculateRecoverableSOL] at hpos
    · exact Or.inl rfl
    · exact Or.inr rfl
  · intro hlev
    rw [hrec]
    rcases hlev with h | h <;> rw [h] <;>
      simp [GhostDetector.calculateRecoverableSOL]
  · intro hlev
    rw [hrec]
    rcases hlev with h | h <;> rw [h] <;>
      simp [GhostDetector.calculateRecoverableSOL]

/-- Witness for C1: a concrete account (100% inactivity weight, thresholds
{25, 50, 75, 90}) whose profile has positive recoverable SOL is indeed High
or Critical. -/
theorem c1_recoverable_only_when_high_or_critical_witness :
    0 < ((GhostDetector.mk 1000000 1000 ⟨1, 0.15, 0.25, 0.2⟩
            ⟨25, 50, 75, 90⟩).generateRiskProfile
          ⟨"acct", "ownr", 2000000000, false, none, none, none⟩
          890880).estimatedRecoverableSOL ∧
    (((GhostDetector.mk 1000000 1000 ⟨1, 0.15, 0.25, 0.2⟩
            ⟨25, 50, 75, 90⟩).generateRiskProfile
          ⟨"acct", "ownr", 2000000000, false, none, none, none⟩
          890880).riskLevel = RiskLevel.High ∨
      ((GhostDetector.mk 1000000 1000 ⟨1, 0.15, 0.25, 0.2⟩
            ⟨25, 50, 75, 90⟩).generateRiskProfile
          ⟨"acct", "ownr", 2000000000, false, none, none, none⟩
          890880).riskLevel = RiskLevel.Critical) := by
  have h :
      0 < ((GhostDetector.mk 1000000 1000 ⟨1, 0.15, 0.25, 0.2⟩
              ⟨25, 50, 75, 90⟩).generateRiskProfile
            ⟨"acct", "ownr", 2000000000, false, none, none, none⟩
            890880).estimatedRecoverableSOL := by
    norm_num [GhostDetector.generateRiskProfile, GhostDetector.checkInactivity,
      GhostDetector.checkOrphanedPDA, GhostDetector.checkRentRecoverable,
      GhostDetector.determineRiskLevel, GhostDetector.calculateRecoverableSOL,
      jsMin, jsMax, List.filterMap_cons, List.sum_cons]
  exact ⟨h, (c1_recoverable_only_when_high_or_critical _ _ _).1 h⟩

/-- The `privilege` field of an authority relationship. -/
inductive Privilege where
  | owner
  | signer
  | writable
deriving DecidableEq, Repr

/-- `AuthorityRelationship` from `src/scanner/types.ts`. -/
structure AuthorityRelationship where
  account : String
  authority : String
  privilege : Privilege
  isActive : Bool
deriving DecidableEq, Repr

namespace AuthorityTracker

/-- `buildAuthorityRelationships` from `src/analysis/authority-tracker.ts`:
one always-active `owner` edge per account whose owner differs from itself,
plus one always-active `signer` edge per PDA whose `seeds` field is present
(a JavaScript array is truthy even when empty). -/
def buildAuthorityRelationships (programId : String)
    (accounts : List PDAccountInfo) : List AuthorityRelationship :=
  accounts.flatMap fun account =>
    (if account.owner ≠ account.pubkey then
      [{ account := account.pubkey
         authority := account.owner
         privilege := Privilege.owner
         isActive := true }]
    else []) ++
    (if account.isPDA ∧ account.seeds.isSome then
      [{ account := account.pubkey
         authority := programId
         privilege := Privilege.signer
         isActive := true }]
    else [])

/-- `detectLegacyAuthorities` from `src/analysis/authority-tracker.ts`:
keep the relationships whose authority is outside the account set and is not
the program itself.  The source's `Set` membership test is list membership. -/
def detectLegacyAuthorities (programId : String)
    (relationships : List AuthorityRelationship)
    (accounts : List PDAccountInfo) : List AuthorityRelationship :=
  let accountPubkeys := accounts.map PDAccountInfo.pubkey
  relationships.filter fun rel =>
    !accountPubkeys.contains rel.authority && rel.authority != programId

/-- The `owner`-privilege authorities of `current`, in relationship order
(the `authorities` list inside `buildAuthorityChains`). -/
def ownerSuccs (relationships : List AuthorityRelationship)
    (current : String) : List String :=
  (relationships.filter fun rel =>
    rel.account == current && rel.privilege == Privilege.owner).map
    AuthorityRelationship.authority

/-- The recursive worker `buildChain` of `buildAuthorityChains`; `fuel` is
`maxDepth - depth`, so the `depth >= maxDepth` guard of the source becomes
`fuel = 0`.  A branch whose owner edges all point back into the current
chain contributes nothing (the source's `forEach` pushes no chain then). -/
def buildChain (relationships : List AuthorityRelationship) :
    ℕ → String → List String → List (List String)
  | 0, _, chain => [chain]
  | fuel + 1, current, chain =>
    let authorities := relationships.filter fun rel =>
      rel.account == current && rel.privilege == Privilege.owner
    if authorities.isEmpty then
      [chain]
    else
      authorities.flatMap fun auth =>
        if chain.contains auth.authority then
          []
        else
          buildChain relationships fuel auth.authority
            (chain ++ [auth.authority])

/-- `buildAuthorityChains` from `src/analysis/authority-tracker.ts`
(the source defaults `maxDepth` to 5). -/
def buildAuthorityChains (startAccount : String)
    (relationships : List AuthorityRelationship) (maxDepth : ℕ) :
    List (List String) :=
  buildChain relationships maxDepth startAccount [startAccount]

end AuthorityTracker

/-- The inactive/legacy-authority section of `generateMarkdown` in the report
generator: its warning line is emitted only when some tracked authority
relationship has `isActive = false`. -/
def inactiveAuthorityLines (authorities : List AuthorityRelationship) :
    List String :=
  let inactiveAuthorities := authorities.filter fun a => !a.isActive
  if inactiveAuthorities.length > 0 then
    ["Found " ++ toString inactiveAuthorities.length ++
      " inactive/legacy authority relationships."]
  else
    []

/-- C7: `detectLegacyAuthorities` returns exactly the relationships whose
authority address is absent from the account set's pubkeys and differs from
the program address; in particular a relationship whose authority equals the
program address is never returned. -/
theorem c7_detectLegacyAuthorities_membership
    (programId : String) (relationships : List AuthorityRelationship)
    (accounts : List PDAccountInfo) (rel : AuthorityRelationship) :
    rel ∈ AuthorityTracker.detectLegacyAuthorities programId relationships
        accounts ↔
      rel ∈ relationships ∧
      rel.authority ∉ accounts.map PDAccountInfo.pubkey ∧
      rel.authority ≠ programId := by
  simp [AuthorityTracker.detectLegacyAuthorities, List.mem_filter, and_assoc]

/-- Witness for C7: a concrete dangling relationship is reported. -/
theorem c7_detectLegacyAuthorities_membership_witness :
    (⟨"x", "a0", Privilege.owner, true⟩ : AuthorityRelationship) ∈
      AuthorityTracker.detectLegacyAuthorities "prog"
        [⟨"x", "a0", Privilege.owner, true⟩] [] :=
  (c7_detectLegacyAuthorities_membership "prog"
    [⟨"x", "a0", Privilege.owner, true⟩] []
    ⟨"x", "a0", Privilege.owner, true⟩).mpr
    ⟨by decide, by decide, by decide⟩

/-- C10: every relationship built by `buildAuthorityRelationships` has
`isActive = true`; `detectLegacyAuthorities` returns a subset of its input
unmodified; hence no authority relationship of a scan result is inactive and
the markdown report's inactive/legacy-authority warning is never emitted. -/
theorem c10_authority_relationships_always_active
    (programId : String) (accounts : List PDAccountInfo)
    (relationships : List AuthorityRelationship) :
    (∀ rel ∈ AuthorityTracker.buildAuthorityRelationships programId accounts,
      rel.isActive = true) ∧
    (∀ rel ∈ AuthorityTracker.detectLegacyAuthorities programId relationships
        accounts, rel ∈ relationships) ∧
    (AuthorityTracker.buildAuthorityRelationships programId accounts).filter
      (fun a => !a.isActive) = [] ∧
    inactiveAuthorityLines
      (AuthorityTracker.buildAuthorityRelationships programId accounts) =
      [] := by
  have h1 : ∀ rel ∈ AuthorityTracker.buildAuthorityRelationships programId
      accounts, rel.isActive = true := by
    intro rel hrel
    rw [AuthorityTracker.buildAuthorityRelationships, List.mem_flatMap] at hrel
    obtain ⟨account, -, hmem⟩ := hrel
    rcases List.mem_append.mp hmem with h | h <;>
      [skip; skip] <;> split_ifs at h <;> simp_all
  have h3 : (AuthorityTracker.buildAuthorityRelationships programId
      accounts).filter (fun a => !a.isActive) = [] := by
    rw [List.filter_eq_nil_iff]
    intro a ha
    simp [h1 a ha]
  refine ⟨h1, ?_, h3, ?_⟩
  · intro rel hrel
    exact (List.mem_filter.mp hrel).1
  · rw [inactiveAuthorityLines]
    simp only [h3]
    simp

/-- Witness for C10: the owner edge built for a concrete account is active. -/
theorem c10_authority_relationships_always_active_witness :
    (⟨"x", "own", Privilege.owner, true⟩ : AuthorityRelationship).isActive =
      true :=
  (c10_authority_relationships_always_active "prog"
    [⟨"x", "own", 5, false, none, none, none⟩] []).1
    ⟨"x", "own", Privilege.owner, true⟩ (by decide)

/-- C5 counterexample: an account whose last-activity slot is known and equal
to `0`, with `currentSlot − 0` well under the threshold, still receives an
inactivity indicator — the source's `!account.lastWriteSlot` treats slot `0`
as absent, so "emitted iff unknown or stale" fails as stated. -/
theorem c5_counterexample_slot_zero :
    ((GhostDetector.mk 5 10 ⟨0.3, 0.15, 0.25, 0.2⟩
        ⟨25, 50, 75, 90⟩).checkInactivity
      ⟨"a", "o", 0, false, none, none, some 0⟩).isSome = true ∧
    (⟨"a", "o", 0, false, none, none, some 0⟩ :
      PDAccountInfo).lastWriteSlot ≠ none ∧
    ¬((5 : ℤ) - 0 > 10) :=
  ⟨rfl, by decide, by decide⟩

/-- C5 (amended): the inactivity indicator is emitted iff no last-activity
slot is known, or the known slot is `0` (JavaScript falsiness treats slot 0
like an absent slot), or `currentSlot − lastWriteSlot` exceeds the
threshold; every emitted indicator has weight `inactivity weight × 100`, the
unknown case identical to the stale case. -/
theorem c5_inactivity_indicator_characterization
    (d : GhostDetector) (account : PDAccountInfo) :
    ((d.checkInactivity account).isSome ↔
      account.lastWriteSlot = none ∨ account.lastWriteSlot = some 0 ∨
      ∃ s, account.lastWriteSlot = some s ∧
        d.currentSlot - s > d.inactiveSlotThreshold) ∧
    (∀ ind, d.checkInactivity account = some ind →
      ind.type = IndicatorType.inactivity ∧
      ind.weight = d.weights.inactivity * 100) := by
  constructor
  · rcases hls : account.lastWriteSlot with _ | s
    · simp [GhostDetector.checkInactivity, hls]
    · by_cases hs : s = 0
      · subst hs
        simp [GhostDetector.checkInactivity, hls]
      · by_cases hstale : d.currentSlot - s > d.inactiveSlotThreshold
        · simp [GhostDetector.checkInactivity, hls, hs, hstale]
        · simp [GhostDetector.checkInactivity, hls, hs, hstale]
  · intro ind hind
    rcases hls : account.lastWriteSlot with _ | s
    · rw [GhostDetector.checkInactivity] at hind
      simp only [hls] at hind
      cases hind
      exact ⟨rfl, rfl⟩
    · rw [GhostDetector.checkInactivity] at hind
      simp only [hls] at hind
      split_ifs at hind <;> cases hind <;> exact ⟨rfl, rfl⟩

/-- Witness for C5: an account with no known activity gets the indicator. -/
theorem c5_inactivity_indicator_characterization_witness :
    ((GhostDetector.mk 5 10 ⟨0.3, 0.15, 0.25, 0.2⟩
        ⟨25, 50, 75, 90⟩).checkInactivity
      ⟨"a", "o", 0, false, none, none, none⟩).isSome = true :=
  (c5_inactivity_indicator_characterization
    (GhostDetector.mk 5 10 ⟨0.3, 0.15, 0.25, 0.2⟩ ⟨25, 50, 75, 90⟩)
    ⟨"a", "o", 0, false, none, none, none⟩).1.mpr (Or.inl rfl)

/-- C4 counterexample: for the claimed scenario (balance 2,000,000, minimum
rent-exempt balance 890,880, no known activity, not a PDA, weights
{inactivity 0.3, rent 0.2}, thresholds {25, 50, 75, 90}) the rent-recoverable
indicator's weight is `0.2 × min(100, (1,109,120/1e9) × 10) = 0.00221824`,
not ≈ 0.22, and the confidence score is `30.00221824`, not ≈ 30.22: the
spec's evaluation of its own formula is off by a factor of 100. -/
theorem c4_counterexample_rent_weight :
    (GhostDetector.mk 1000000 1000 ⟨0.3, 0.15, 0.25, 0.2⟩
        ⟨25, 50, 75, 90⟩).generateRiskProfile
      ⟨"acct", "own", 2000000, false, none, none, none⟩ 890880 =
      ⟨"acct", RiskLevel.Low, 30.00221824,
        [⟨IndicatorType.inactivity, 30⟩,
         ⟨IndicatorType.rent_recoverable, 0.00221824⟩], 0⟩ ∧
    ((0.00221824 : ℚ) < 0.01 ∧ (0.00221824 : ℚ) ≠ 0.22) ∧
    ((30.00221824 : ℚ) < 30.1 ∧ (30.00221824 : ℚ) ≠ 30.22) := by
  refine ⟨?_, by norm_num, by norm_num⟩
  norm_num [GhostDetector.generateRiskProfile, GhostDetector.checkInactivity,
    GhostDetector.checkOrphanedPDA, GhostDetector.checkRentRecoverable,
    GhostDetector.determineRiskLevel, GhostDetector.calculateRecoverableSOL,
    jsMin, jsMax, List.filterMap_cons, List.sum_cons]
  decide

/-- C4 (amended): in the claimed scenario the inactivity indicator has weight
30 and the rent-recoverable indicator has weight
`0.2 × min(100, (1,109,120/1e9) × 10) = 0.00221824`, giving confidence score
`30.00221824` (≈ 30.002), risk level Low and estimated recoverable balance 0;
the unused orphaned-PDA and authority-mismatch weights are irrelevant. -/
theorem c4_low_risk_scenario (wA wO : ℚ) :
    (GhostDetector.mk 1000000 1000 ⟨0.3, wA, wO, 0.2⟩
        ⟨25, 50, 75, 90⟩).generateRiskProfile
      ⟨"acct", "own", 2000000, false, none, none, none⟩ 890880 =
      ⟨"acct", RiskLevel.Low, 30.00221824,
        [⟨IndicatorType.inactivity, 30⟩,
         ⟨IndicatorType.rent_recoverable, 0.00221824⟩], 0⟩ := by
  norm_num [GhostDetector.generateRiskProfile, GhostDetector.checkInactivity,
    GhostDetector.checkOrphanedPDA, GhostDetector.checkRentRecoverable,
    GhostDetector.determineRiskLevel, GhostDetector.calculateRecoverableSOL,
    jsMin, jsMax, List.filterMap_cons, List.sum_cons]
  decide

/-- C3 counterexample: the claimed scenario (stale activity, orphaned PDA,
weights {inactivity 0.3, orphanedPda 0.25, rent 0.2}, thresholds
{25, 50, 75, 90}) yields confidence `55.00221824`, which is below the High
threshold 75, so the risk level is Medium — not High as claimed — and the
estimated recoverable balance is therefore 0, not (2,000,000 − 890,880)/1e9. -/
theorem c3_counterexample_medium_not_high :
    ((GhostDetector.mk 1000000 1000 ⟨0.3, 0.15, 0.25, 0.2⟩
          ⟨25, 50, 75, 90⟩).generateRiskProfile
        ⟨"acct", "own", 2000000, true, none, none, some 1⟩
        890880).riskLevel = RiskLevel.Medium ∧
    ((GhostDetector.mk 1000000 1000 ⟨0.3, 0.15, 0.25, 0.2⟩
          ⟨25, 50, 75, 90⟩).generateRiskProfile
        ⟨"acct", "own", 2000000, true, none, none, some 1⟩
        890880).riskLevel ≠ RiskLevel.High ∧
    ((GhostDetector.mk 1000000 1000 ⟨0.3, 0.15, 0.25, 0.2⟩
          ⟨25, 50, 75, 90⟩).generateRiskProfile
        ⟨"acct", "own", 2000000, true, none, none, some 1⟩
        890880).estimatedRecoverableSOL = 0 ∧
    ((GhostDetector.mk 1000000 1000 ⟨0.3, 0.15, 0.25, 0.2⟩
          ⟨25, 50, 75, 90⟩).generateRiskProfile
        ⟨"acct", "own", 2000000, true, none, none, some 1⟩
        890880).confidenceScore = 55.00221824 := by
  have h :
      (GhostDetector.mk 1000000 1000 ⟨0.3, 0.15, 0.25, 0.2⟩
          ⟨25, 50, 75, 90⟩).generateRiskProfile
        ⟨"acct", "own", 2000000, true, none, none, some 1⟩ 890880 =
        ⟨"acct", RiskLevel.Medium, 55.00221824,
          [⟨IndicatorType.inactivity, 30⟩,
           ⟨IndicatorType.orphaned_pda, 25⟩,
           ⟨IndicatorType.rent_recoverable, 0.00221824⟩], 0⟩ := by
    norm_num [GhostDetector.generateRiskProfile,
      GhostDetector.checkInactivity, GhostDetector.checkOrphanedPDA,
      GhostDetector.checkRentRecoverable, GhostDetector.determineRiskLevel,
      GhostDetector.calculateRecoverableSOL,
      jsMin, jsMax, List.filterMap_cons, List.sum_cons]
    decide
  rw [h]
  refine ⟨rfl, by decide, rfl, rfl⟩

/-- C3 (amended): scoring the account with balance 2,000,000, minimum
rent-exempt balance 890,880, any last-activity slot staler than the
threshold, `isPDA = true` with no recovered seeds, weights {inactivity 0.3,
orphanedPda 0.25, rent 0.2} and thresholds {25, 50, 75, 90} yields
indicators 30 + 25 + 0.00221824, confidence score `55.00221824` (≈ 55.002),
risk level Medium, and estimated recoverable balance 0. -/
theorem c3_stale_orphaned_pda_scenario (cs ls th : ℤ)
    (hstale : cs - ls > th) :
    (GhostDetector.mk cs th ⟨0.3, 0.15, 0.25, 0.2⟩
        ⟨25, 50, 75, 90⟩).generateRiskProfile
      ⟨"acct", "own", 2000000, true, none, none, some ls⟩ 890880 =
      ⟨"acct", RiskLevel.Medium, 55.00221824,
        [⟨IndicatorType.inactivity, 30⟩,
         ⟨IndicatorType.orphaned_pda, 25⟩,
         ⟨IndicatorType.rent_recoverable, 0.00221824⟩], 0⟩ := by
  by_cases hz : ls = 0 <;>
    norm_num [GhostDetector.generateRiskProfile,
      GhostDetector.checkInactivity, GhostDetector.checkOrphanedPDA,
      GhostDetector.checkRentRecoverable, GhostDetector.determineRiskLevel,
      GhostDetector.calculateRecoverableSOL, hz, hstale,
      jsMin, jsMax, List.filterMap_cons, List.sum_cons] <;>
    decide

/-- Witness for C3 (amended): a concrete stale slot. -/
theorem c3_stale_orphaned_pda_scenario_witness :
    ((1000000 : ℤ) - 1 > 1000) ∧
    (GhostDetector.mk 1000000 1000 ⟨0.3, 0.15, 0.25, 0.2⟩
        ⟨25, 50, 75, 90⟩).generateRiskProfile
      ⟨"acct", "own", 2000000, true, none, none, some 1⟩ 890880 =
      ⟨"acct", RiskLevel.Medium, 55.00221824,
        [⟨IndicatorType.inactivity, 30⟩,
         ⟨IndicatorType.orphaned_pda, 25⟩,
         ⟨IndicatorType.rent_recoverable, 0.00221824⟩], 0⟩ :=
  ⟨by decide, c3_stale_orphaned_pda_scenario 1000000 1 1000 (by decide)⟩

/-- Whether the inactivity indicator fires; depends only on the slots, never
on the configured weights. -/
def inactCond (cs th : ℤ) (a : PDAccountInfo) : Bool :=
  match a.lastWriteSlot with
  | none => true
  | some s => s == 0 || decide (cs - s > th)

/-- Whether the orphaned-PDA indicator fires. -/
def orphanCond (a : PDAccountInfo) : Bool :=
  a.isPDA && decide (a.seeds = none ∨ a.seeds = some [])

/-- Whether the rent-recoverable indicator fires. -/
def rentCond (a : PDAccountInfo) (minRent : ℚ) : Bool :=
  decide (a.lamports - minRent > 0)

theorem checkInactivity_eq (cs th : ℤ) (w : RiskScoringWeights)
    (t : RiskThresholds) (a : PDAccountInfo) :
    (GhostDetector.mk cs th w t).checkInactivity a =
      if inactCond cs th a then
        some ⟨IndicatorType.inactivity, w.inactivity * 100⟩
      else
        none := by
  rcases hls : a.lastWriteSlot with _ | s
  · simp [GhostDetector.checkInactivity, inactCond, hls]
  · by_cases hz : s = 0
    · simp [GhostDetector.checkInactivity, inactCond, hls, hz]
    · by_cases hstale : cs - s > th <;>
        simp [GhostDetector.checkInactivity, inactCond, hls, hz, hstale]

theorem checkOrphanedPDA_eq (cs th : ℤ) (w : RiskScoringWeights)
    (t : RiskThresholds) (a : PDAccountInfo) :
    (GhostDetector.mk cs th w t).checkOrphanedPDA a =
      if orphanCond a then
        some ⟨IndicatorType.orphaned_pda, w.orphanedPda * 100⟩
      else
        none := by
  rcases hp : a.isPDA
  · simp [GhostDetector.checkOrphanedPDA, orphanCond, hp]
  · by_cases hs : a.seeds = none ∨ a.seeds = some [] <;>
      simp [GhostDetector.checkOrphanedPDA, orphanCond, hp, hs]

theorem checkRentRecoverable_eq (cs th : ℤ) (w : RiskScoringWeights)
    (t : RiskThresholds) (a : PDAccountInfo) (minRent : ℚ) :
    (GhostDetector.mk cs th w t).checkRentRecoverable a minRent =
      if rentCond a minRent then
        some ⟨IndicatorType.rent_recoverable,
          w.rentRecoverable * jsMin 100 ((a.lamports - minRent) / 1e9 * 10)⟩
      else
        none := by
  by_cases h : a.lamports - minRent > 0 <;>
    simp [GhostDetector.checkRentRecoverable, rentCond, h]

/-- The confidence score as a closed formula: the three emission conditions
are independent of the weight configuration. -/
theorem confidenceScore_eq (cs th : ℤ) (w : RiskScoringWeights)
    (t : RiskThresholds) (a : PDAccountInfo) (minRent : ℚ) :
    ((GhostDetector.mk cs th w t).generateRiskProfile a
        minRent).confidenceScore =
      jsMin 100
        ((if inactCond cs th a then w.inactivity * 100 else 0) +
         (if orphanCond a then w.orphanedPda * 100 else 0) +
         (if rentCond a minRent then
           w.rentRecoverable * jsMin 100 ((a.lamports - minRent) / 1e9 * 10)
         else 0)) := by
  rw [GhostDetector.generateRiskProfile]
  simp only [checkInactivity_eq, checkOrphanedPDA_eq, checkRentRecoverable_eq]
  rcases h1 : inactCond cs th a <;> rcases h2 : orphanCond a <;>
    rcases h3 : rentCond a minRent <;>
    simp [List.filterMap_cons, List.sum_cons] <;> ring_nf

theorem jsMin_100_nonneg (T : ℚ) (h : 0 ≤ T) : 0 ≤ jsMin 100 T := by
  rw [jsMin]
  split_ifs <;> linarith

theorem jsMin_100_le_100 (T : ℚ) : jsMin 100 T ≤ 100 := by
  rw [jsMin]
  split_ifs with h <;> linarith

theorem jsMin_mono_right (c a b : ℚ) (h : a ≤ b) : jsMin c a ≤ jsMin c b := by
  rw [jsMin, jsMin]
  split_ifs <;> linarith

/-- C6: for every account and non-negative weight configuration the produced
`confidenceScore` lies in [0, 100] and equals `min(100, sum of emitted
indicator weights)`, and it is monotonically non-decreasing when the
configured indicator weights increase (pointwise, hence in particular when
any single weight increases with the rest fixed). -/
theorem c6_confidence_score_bounds_and_monotone (cs th : ℤ)
    (t : RiskThresholds) (a : PDAccountInfo) (minRent : ℚ)
    (w w' : RiskScoringWeights)
    (hw : 0 ≤ w.inactivity ∧ 0 ≤ w.authorityMismatch ∧
      0 ≤ w.orphanedPda ∧ 0 ≤ w.rentRecoverable)
    (hle : w.inactivity ≤ w'.inactivity ∧
      w.authorityMismatch ≤ w'.authorityMismatch ∧
      w.orphanedPda ≤ w'.orphanedPda ∧
      w.rentRecoverable ≤ w'.rentRecoverable) :
    (0 ≤ ((GhostDetector.mk cs th w t).generateRiskProfile a
        minRent).confidenceScore ∧
      ((GhostDetector.mk cs th w t).generateRiskProfile a
        minRent).confidenceScore ≤ 100) ∧
    ((GhostDetector.mk cs th w t).generateRiskProfile a
        minRent).confidenceScore =
      jsMin 100
        ((((GhostDetector.mk cs th w t).generateRiskProfile a
          minRent).indicators.map RiskIndicator.weight).sum) ∧
    ((GhostDetector.mk cs th w t).generateRiskProfile a
        minRent).confidenceScore ≤
      ((GhostDetector.mk cs th w' t).generateRiskProfile a
        minRent).confidenceScore := by
  obtain ⟨hw1, hw2, hw3, hw4⟩ := hw
  obtain ⟨hl1, hl2, hl3, hl4⟩ := hle
  have hrentpos : rentCond a minRent = true →
      0 ≤ jsMin 100 ((a.lamports - minRent) / 1e9 * 10) := by
    intro h
    rw [rentCond, decide_eq_true_eq] at h
    rw [jsMin]
    split_ifs with h100
    · linarith
    · positivity
  refine ⟨⟨?_, ?_⟩, ?_, ?_⟩
  · rw [confidenceScore_eq]
    apply jsMin_100_nonneg
    have t1 : 0 ≤ (if inactCond cs th a then w.inactivity * 100 else 0) := by
      split_ifs <;> positivity
    have t2 : 0 ≤ (if orphanCond a then w.orphanedPda * 100 else 0) := by
      split_ifs <;> positivity
    have t3 : 0 ≤ (if rentCond a minRent then
        w.rentRecoverable * jsMin 100 ((a.lamports - minRent) / 1e9 * 10)
      else 0) := by
      split_ifs with h
      · exact mul_nonneg hw4 (hrentpos h)
      · exact le_refl 0
    linarith
  · rw [confidenceScore_eq]
    exact jsMin_100_le_100 _
  · rw [GhostDetector.generateRiskProfile]
  · rw [confidenceScore_eq, confidenceScore_eq]
    apply jsMin_mono_right
    have m1 : (if inactCond cs th a then w.inactivity * 100 else 0) ≤
        (if inactCond cs th a then w'.inactivity * 100 else 0) := by
      split_ifs <;> [linarith; exact le_refl 0]
    have m2 : (if orphanCond a then w.orphanedPda * 100 else 0) ≤
        (if orphanCond a then w'.orphanedPda * 100 else 0) := by
      split_ifs <;> [linarith; exact le_refl 0]
    have m3 : (if rentCond a minRent then
        w.rentRecoverable * jsMin 100 ((a.lamports - minRent) / 1e9 * 10)
      else 0) ≤
        (if rentCond a minRent then
          w'.rentRecoverable * jsMin 100 ((a.lamports - minRent) / 1e9 * 10)
        else 0) := by
      split_ifs with h
      · exact mul_le_mul_of_nonneg_right hl4 (hrentpos h)
      · exact le_refl 0
    linarith

/-- Witness for C6: concrete non-negative, pointwise-increasing weights. -/
theorem c6_confidence_score_bounds_and_monotone_witness :
    ((0 : ℚ) ≤ 0.3 ∧ (0 : ℚ) ≤ 0.15 ∧ (0 : ℚ) ≤ 0.25 ∧ (0 : ℚ) ≤ 0.2) ∧
    ((0.3 : ℚ) ≤ 0.4 ∧ (0.15 : ℚ) ≤ 0.15 ∧ (0.25 : ℚ) ≤ 0.25 ∧
      (0.2 : ℚ) ≤ 0.2) ∧
    ((0 ≤ ((GhostDetector.mk 1000000 1000 ⟨0.3, 0.15, 0.25, 0.2⟩
          ⟨25, 50, 75, 90⟩).generateRiskProfile
        ⟨"acct", "own", 2000000, false, none, none, none⟩
        890880).confidenceScore ∧
      ((GhostDetector.mk 1000000 1000 ⟨0.3, 0.15, 0.25, 0.2⟩
          ⟨25, 50, 75, 90⟩).generateRiskProfile
        ⟨"acct", "own", 2000000, false, none, none, none⟩
        890880).confidenceScore ≤ 100) ∧
    ((GhostDetector.mk 1000000 1000 ⟨0.3, 0.15, 0.25, 0.2⟩
        ⟨25, 50, 75, 90⟩).generateRiskProfile
      ⟨"acct", "own", 2000000, false, none, none, none⟩
      890880).confidenceScore =
      jsMin 100
        ((((GhostDetector.mk 1000000 1000 ⟨0.3, 0.15, 0.25, 0.2⟩
            ⟨25, 50, 75, 90⟩).generateRiskProfile
          ⟨"acct", "own", 2000000, false, none, none, none⟩
          890880).indicators.map RiskIndicator.weight).sum) ∧
    ((GhostDetector.mk 1000000 1000 ⟨0.3, 0.15, 0.25, 0.2⟩
        ⟨25, 50, 75, 90⟩).generateRiskProfile
      ⟨"acct", "own", 2000000, false, none, none, none⟩
      890880).confidenceScore ≤
      ((GhostDetector.mk 1000000 1000 ⟨0.4, 0.15, 0.25, 0.2⟩
          ⟨25, 50, 75, 90⟩).generateRiskProfile
        ⟨"acct", "own", 2000000, false, none, none, none⟩
        890880).confidenceScore) :=
  ⟨by norm_num, by norm_num,
   c6_confidence_score_bounds_and_monotone 1000000 1000 ⟨25, 50, 75, 90⟩
     ⟨"acct", "own", 2000000, false, none, none, none⟩ 890880
     ⟨0.3, 0.15, 0.25, 0.2⟩ ⟨0.4, 0.15, 0.25, 0.2⟩
     (by norm_num) (by norm_num)⟩

/-- The fixed, ordered seed-label catalogue of `attemptCommonDerivations` in
`src/scanner/pda-detector.ts` (each source pattern is a singleton label). -/
def commonSeeds : List String :=
  ["metadata", "vault", "pool", "authority", "state", "config", "escrow",
   "mint", "token", "user", "account", "data"]

/-- The inner loop of `attemptCommonDerivations`: try bump values from `b`
down to 0 against the target, returning the first matching bump.  `derive`
abstracts the address derivation the source performs with
`PublicKey.findProgramAddress([label, bump], programId)`; it is a fixed
deterministic function of the label and bump. -/
def findBumpDesc {α : Type} [DecidableEq α] (derive : String → ℕ → α)
    (label : String) (target : α) : ℕ → Option ℕ
  | 0 => if derive label 0 = target then some 0 else none
  | b + 1 =>
    if derive label (b + 1) = target then some (b + 1)
    else findBumpDesc derive label target b

/-- `attemptCommonDerivations` from `src/scanner/pda-detector.ts`: iterate
the catalogue in order and bumps from 255 down to 0, returning the first
`(label, bump)` whose derived address equals the target. -/
def attemptCommonDerivations {α : Type} [DecidableEq α]
    (derive : String → ℕ → α) (target : α) : Option (String × ℕ) :=
  commonSeeds.findSome? fun label =>
    (findBumpDesc derive label target 255).map fun bump => (label, bump)

theorem findBumpDesc_sound {α : Type} [DecidableEq α]
    (derive : String → ℕ → α) (label : String) (target : α) :
    ∀ B b, findBumpDesc derive label target B = some b →
      derive label b = target ∧ b ≤ B := by
  intro B
  induction B with
  | zero =>
    intro b h
    rw [findBumpDesc] at h
    split_ifs at h with hd
    · cases h
      exact ⟨hd, Nat.le_refl 0⟩
  | succ B ih =>
    intro b h
    rw [findBumpDesc] at h
    split_ifs at h with hd
    · cases h
      exact ⟨hd, Nat.le_refl _⟩
    · obtain ⟨h1, h2⟩ := ih b h
      exact ⟨h1, h2.trans (Nat.le_succ B)⟩

theorem findBumpDesc_isSome {α : Type} [DecidableEq α]
    (derive : String → ℕ → α) (label : String) (target : α) :
    ∀ B b, b ≤ B → derive label b = target →
      (findBumpDesc derive label target B).isSome = true := by
  intro B
  induction B with
  | zero =>
    intro b hb hd
    interval_cases b
    rw [findBumpDesc, if_pos hd]
    rfl
  | succ B ih =>
    intro b hb hd
    rw [findBumpDesc]
    split_ifs with hd'
    · rfl
    · rcases Nat.lt_or_ge b (B + 1) with h | h
      · exact ih b (Nat.lt_succ_iff.mp h) hd
      · have : b = B + 1 := le_antisymm hb h
        subst this
        exact absurd hd hd'

theorem findSeed_roundtrip_aux {α : Type} [DecidableEq α]
    (derive : String → ℕ → α) (label : String) (bump : ℕ) (hb : bump ≤ 255) :
    ∀ ls : List String, label ∈ ls →
      (∀ l₁ b₁, l₁ ∈ ls → b₁ ≤ 255 → derive l₁ b₁ = derive label bump →
        l₁ = label ∧ b₁ = bump) →
      ls.findSome? (fun l =>
        (findBumpDesc derive l (derive label bump) 255).map fun b =>
          (l, b)) = some (label, bump) := by
  intro ls
  induction ls with
  | nil => intro hl; cases hl
  | cons l ls ih =>
    intro hl hinj
    cases h : findBumpDesc derive l (derive label bump) 255 with
    | some b =>
      obtain ⟨hd, hble⟩ := findBumpDesc_sound derive l (derive label bump)
        255 b h
      obtain ⟨rfl, rfl⟩ := hinj l b (List.mem_cons_self l ls) hble hd
      simp [List.findSome?_cons, h]
    | none =>
      have hne : l ≠ label := by
        rintro rfl
        have := findBumpDesc_isSome derive l (derive l bump) 255 bump hb rfl
        rw [h] at this
        cases this
      have hl2 : label ∈ ls := by
        rcases List.mem_cons.mp hl with h' | h'
        · exact absurd h'.symm hne
        · exact h'
      rw [List.findSome?_cons, h]
      exact ih hl2 fun l₁ b₁ h₁ hb₁ heq =>
        hinj l₁ b₁ (List.mem_cons_of_mem l h₁) hb₁ heq

/-- C8: seed-recovery round-trip.  For any collision-free derivation
function, any label of the catalogue and any bump in [0, 255], classifying
the address derived from `(label, bump)` recovers exactly that pair (the
search scans the catalogue in order and bumps from 255 down to 0, and the
only match is the original pair). -/
theorem c8_seed_recovery_roundtrip {α : Type} [DecidableEq α]
    (derive : String → ℕ → α)
    (hinj : ∀ l₁ b₁ l₂ b₂, l₁ ∈ commonSeeds → l₂ ∈ commonSeeds →
      b₁ ≤ 255 → b₂ ≤ 255 → derive l₁ b₁ = derive l₂ b₂ →
      l₁ = l₂ ∧ b₁ = b₂)
    (label : String) (bump : ℕ) (hl : label ∈ commonSeeds)
    (hb : bump ≤ 255) :
    attemptCommonDerivations derive (derive label bump) =
      some (label, bump) := by
  rw [attemptCommonDerivations]
  exact findSeed_roundtrip_aux derive label bump hb commonSeeds hl
    fun l₁ b₁ h₁ hb₁ heq => hinj l₁ b₁ label bump h₁ hl hb₁ hb heq

/-- Witness for C8: with the trivially injective derivation
`derive l b = (l, b)`, the address derived from ("vault", 7) classifies back
to ("vault", 7). -/
theorem c8_seed_recovery_roundtrip_witness :
    ("vault" ∈ commonSeeds ∧ (7 : ℕ) ≤ 255) ∧
    attemptCommonDerivations (fun l b => ((l, b) : String × ℕ))
      ("vault", 7) = some ("vault", 7) :=
  ⟨⟨by decide, by decide⟩,
   c8_seed_recovery_roundtrip (fun l b => (l, b))
     (fun l₁ b₁ l₂ b₂ _ _ _ _ h =>
       ⟨congrArg Prod.fst h, congrArg Prod.snd h⟩)
     "vault" 7 (by decide) (by decide)⟩

/-- Consecutive elements of a chain are linked by `owner` edges: each
element's successor is one of its owner authorities. -/
def chainStep (rels : List AuthorityRelationship) : List String → Bool
  | [] => true
  | [_] => true
  | x :: y :: rest =>
    (AuthorityTracker.ownerSuccs rels x).contains y &&
      chainStep rels (y :: rest)

theorem ownerSuccs_mem (rels : List AuthorityRelationship) (x y : String) :
    y ∈ AuthorityTracker.ownerSuccs rels x ↔
      ∃ rel ∈ rels, rel.account = x ∧ rel.privilege = Privilege.owner ∧
        rel.authority = y := by
  simp [AuthorityTracker.ownerSuccs, List.mem_map, List.mem_filter]
  constructor
  · rintro ⟨rel, ⟨hmem, hacc, hpriv⟩, hauth⟩
    exact ⟨rel, hmem, hacc, hpriv, hauth⟩
  · rintro ⟨rel, hmem, hacc, hpriv, hauth⟩
    exact ⟨rel, ⟨hmem, hacc, hpriv⟩, hauth⟩

theorem chainStep_append (rels : List AuthorityRelationship) :
    ∀ (l : List String) (x y : String) (rest : List String),
      l.getLast? = some x →
      (chainStep rels (l ++ y :: rest) = true ↔
        (chainStep rels l = true ∧ y ∈ AuthorityTracker.ownerSuccs rels x ∧
          chainStep rels (y :: rest) = true)) := by
  intro l
  induction l with
  | nil =>
    intro x y rest h
    cases h
  | cons a l ih =>
    intro x y rest h
    cases l with
    | nil =>
      have hx : a = x := by
        simpa using h
      subst hx
      simp [chainStep]
    | cons b l' =>
      have h' : (b :: l').getLast? = some x := by
        simpa [List.getLast?_cons_cons] using h
      have hstep :
          chainStep rels ((a :: b :: l') ++ y :: rest) =
            ((AuthorityTracker.ownerSuccs rels a).contains b &&
              chainStep rels ((b :: l') ++ y :: rest)) := rfl
      have hstep2 :
          chainStep rels (a :: b :: l') =
            ((AuthorityTracker.ownerSuccs rels a).contains b &&
              chainStep rels (b :: l')) := rfl
      rw [hstep, Bool.and_eq_true, ih x y rest h', hstep2,
        Bool.and_eq_true]
      tauto

theorem buildChain_mem_iff (rels : List AuthorityRelationship) :
    ∀ (fuel : ℕ) (chain : List String) (current : String) (c : List String),
      chain.getLast? = some current → chainStep rels chain = true →
      chain.Nodup →
      (c ∈ AuthorityTracker.buildChain rels fuel current chain ↔
        ∃ ext : List String, c = chain ++ ext ∧ chainStep rels c = true ∧
          c.Nodup ∧
          (ext.length = fuel ∨ (ext.length < fuel ∧
            AuthorityTracker.ownerSuccs rels (c.getLastD "") = []))) := by
  intro fuel
  induction fuel with
  | zero =>
    intro chain current c hlast hstep hnd
    rw [AuthorityTracker.buildChain]
    simp only [List.mem_singleton]
    constructor
    · rintro rfl
      exact ⟨[], by simp, hstep, hnd, Or.inl rfl⟩
    · rintro ⟨ext, rfl, -, -, hlen⟩
      rcases hlen with h | ⟨h, -⟩
      · rw [List.length_eq_zero] at h
        subst h
        simp
      · exact absurd h (Nat.not_lt_zero _)
  | succ fuel ih =>
    intro chain current c hlast hstep hnd
    rw [AuthorityTracker.buildChain]
    by_cases hemp : (rels.filter fun rel =>
        rel.account == current && rel.privilege == Privilege.owner) = []
    · have hsucc : AuthorityTracker.ownerSuccs rels current = [] := by
        rw [AuthorityTracker.ownerSuccs, hemp]
        rfl
      simp only [hemp, List.isEmpty_nil, if_true, List.mem_singleton]
      constructor
      · rintro rfl
        refine ⟨[], by simp, hstep, hnd,
          Or.inr ⟨Nat.succ_pos fuel, ?_⟩⟩
        rw [List.getLastD_eq_getLast?, hlast]
        exact hsucc
      · rintro ⟨ext, rfl, hstepc, hndc, hlen⟩
        cases ext with
        | nil => simp
        | cons y ext' =>
          obtain ⟨-, hy, -⟩ :=
            (chainStep_append rels chain current y ext' hlast).mp hstepc
          rw [hsucc] at hy
          exact absurd hy (List.not_mem_nil y)
    · have hfalse : (rels.filter fun rel =>
          rel.account == current &&
            rel.privilege == Privilege.owner).isEmpty = false := by
        cases hfil : rels.filter fun rel =>
            rel.account == current && rel.privilege == Privilege.owner
        · exact absurd hfil hemp
        · rfl
      simp only [hfalse, Bool.false_eq_true, if_false, List.mem_flatMap]
      constructor
      · rintro ⟨auth, hauthmem, hc⟩
        by_cases hin : auth.authority ∈ chain
        · rw [if_pos (by simpa using hin)] at hc
          exact absurd hc (List.not_mem_nil c)
        · rw [if_neg (by simpa using hin)] at hc
          have hy : auth.authority ∈ AuthorityTracker.ownerSuccs rels
              current := by
            rw [AuthorityTracker.ownerSuccs]
            exact List.mem_map_of_mem _ hauthmem
          have hlast' : (chain ++ [auth.authority]).getLast? =
              some auth.authority := by
            simp
          have hstep' : chainStep rels (chain ++ [auth.authority]) = true := by
            rw [chainStep_append rels chain current auth.authority [] hlast]
            exact ⟨hstep, hy, rfl⟩
          have hnd' : (chain ++ [auth.authority]).Nodup := by
            rw [List.nodup_append]
            exact ⟨hnd, List.nodup_singleton _, fun a ha hamem =>
              absurd ha (by rw [List.mem_singleton.mp hamem]; exact hin)⟩
          rw [ih (chain ++ [auth.authority]) auth.authority c hlast' hstep'
            hnd'] at hc
          obtain ⟨ext', hcc, hstepc, hndc, hlen⟩ := hc
          refine ⟨auth.authority :: ext', ?_, hstepc, hndc, ?_⟩
          · rw [hcc, List.append_assoc, List.singleton_append]
          · rcases hlen with h | ⟨h, hdead⟩
            · left
              simp [h]
            · right
              exact ⟨by simpa using Nat.succ_lt_succ h, hdead⟩
      · rintro ⟨ext, rfl, hstepc, hndc, hlen⟩
        cases ext with
        | nil =>
          rcases hlen with h | ⟨-, hdead⟩
          · simp at h
          · have hcur : (chain ++ ([] : List String)).getLastD "" =
                current := by
              rw [List.append_nil, List.getLastD_eq_getLast?, hlast]
              rfl
            rw [hcur, AuthorityTracker.ownerSuccs] at hdead
            exact absurd (List.map_eq_nil_iff.mp hdead) hemp
        | cons y ext' =>
          obtain ⟨hs1, hy, hs2⟩ :=
            (chainStep_append rels chain current y ext' hlast).mp hstepc
          rw [AuthorityTracker.ownerSuccs] at hy
          obtain ⟨auth, hauthmem, hauthy⟩ := List.mem_map.mp hy
          subst hauthy
          have hynotin : auth.authority ∉ chain := by
            intro hmem
            exact ((List.nodup_append.mp hndc).2.2 hmem)
              (List.mem_cons_self auth.authority ext')
          refine ⟨auth, hauthmem, ?_⟩
          rw [if_neg (by simpa using hynotin)]
          have hlast' : (chain ++ [auth.authority]).getLast? =
              some auth.authority := by
            simp
          have hstep' : chainStep rels (chain ++ [auth.authority]) = true := by
            rw [chainStep_append rels chain current auth.authority [] hlast]
            refine ⟨hs1, ?_, rfl⟩
            rw [AuthorityTracker.ownerSuccs]
            exact List.mem_map_of_mem _ hauthmem
          have hnd' : (chain ++ [auth.authority]).Nodup := by
            rw [List.nodup_append]
            exact ⟨(List.nodup_append.mp hndc).1, List.nodup_singleton _,
              fun a ha hamem => absurd ha
                (by rw [List.mem_singleton.mp hamem]; exact hynotin)⟩
          rw [ih (chain ++ [auth.authority]) auth.authority
            (chain ++ auth.authority :: ext') hlast' hstep' hnd']
          refine ⟨ext', ?_, hstepc, hndc, ?_⟩
          · rw [List.append_assoc, List.singleton_append]
          · rcases hlen with h | ⟨h, hdead⟩
            · left
              simpa using h
            · right
              exact ⟨Nat.lt_of_succ_lt_succ (by simpa using h), hdead⟩

/-- C9 counterexample: with the two-edge ownership cycle a→b→a, the branch
from "a" is terminated by cycle detection at chain ["a", "b"], but
`buildAuthorityChains` returns no chain at all — the source's `forEach`
pushes nothing when every owner authority is already in the chain, so
cycle-terminated branches are dropped rather than reported. -/
theorem c9_counterexample_cycle_chain_dropped :
    AuthorityTracker.buildAuthorityChains "a"
      [⟨"a", "b", Privilege.owner, true⟩,
       ⟨"b", "a", Privilege.owner, true⟩] 5 = [] ∧
    AuthorityTracker.ownerSuccs
      [⟨"a", "b", Privilege.owner, true⟩,
       ⟨"b", "a", Privilege.owner, true⟩] "b" = ["a"] ∧
    "a" ∈ ["a", "b"] := by
  refine ⟨?_, by decide, by decide⟩
  decide

/-- C9 (amended): a chain is returned by `buildAuthorityChains` iff it
starts at the start address, follows `owner` edges backward, repeats no
address, and is terminal in the sense that either its length is
`maxDepth + 1` (depth exhausted) or its last address has no owner edge at
all.  Branches whose continuation is blocked only by the cycle check
contribute no chain. -/
theorem c9_build_authority_chains_characterization (start : String)
    (rels : List AuthorityRelationship) (maxDepth : ℕ) (c : List String) :
    c ∈ AuthorityTracker.buildAuthorityChains start rels maxDepth ↔
      (c.head? = some start ∧ chainStep rels c = true ∧ c.Nodup ∧
        (c.length = maxDepth + 1 ∨ (c.length ≤ maxDepth ∧
          AuthorityTracker.ownerSuccs rels (c.getLastD "") = []))) := by
  rw [AuthorityTracker.buildAuthorityChains,
    buildChain_mem_iff rels maxDepth [start] start c (by simp) rfl
      (List.nodup_singleton start)]
  constructor
  · rintro ⟨ext, rfl, hstepc, hndc, hlen⟩
    refine ⟨by simp, hstepc, hndc, ?_⟩
    rcases hlen with h | ⟨h, hdead⟩
    · left
      simp [h, Nat.add_comm]
    · right
      refine ⟨?_, hdead⟩
      simp only [List.length_append, List.length_singleton]
      omega
  · rintro ⟨hhead, hstepc, hndc, hlen⟩
    cases c with
    | nil => cases hhead
    | cons a rest =>
      have ha : a = start := by
        simpa using hhead
      subst ha
      refine ⟨rest, rfl, hstepc, hndc, ?_⟩
      rcases hlen with h | ⟨h, hdead⟩
      · left
        simp only [List.length_cons] at h
        omega
      · right
        refine ⟨?_, hdead⟩
        simp only [List.length_cons] at h
        omega

/-- Witness for C9 (amended): with the single edge a→b, the terminal chain
["a", "b"] is returned. -/
theorem c9_build_authority_chains_characterization_witness :
    ["a", "b"] ∈ AuthorityTracker.buildAuthorityChains "a"
      [⟨"a", "b", Privilege.owner, true⟩] 5 :=
  (c9_build_authority_chains_characterization "a"
    [⟨"a", "b", Privilege.owner, true⟩] 5 ["a", "b"]).mpr
    ⟨by decide, by decide, by decide, Or.inr ⟨by decide, by decide⟩⟩

/-- Node kinds of the visualization graph (`'program' | 'pda' | 'account'`). -/
inductive NodeType where
  | program
  | pda
  | account
deriving DecidableEq, Repr

/-- `AccountGraphNode` from `src/scanner/types.ts`: the fields the filtering
policy reads (`id`, `type`, `riskProfile`); the presentation `metadata`
block is elided. -/
structure AccountGraphNode where
  id : String
  pubkey : String
  type : NodeType
  riskProfile : Option AccountRiskProfile
deriving DecidableEq, Repr

/-- `AccountGraphEdge` from `src/scanner/types.ts`. -/
structure AccountGraphEdge where
  source : String
  target : String
  relationship : String
  isActive : Bool
deriving DecidableEq, Repr

/-- `AccountGraph` (nodes, edges and the program id; the scan timestamp and
slot metadata are carried through unchanged and elided). -/
structure AccountGraph where
  nodes : List AccountGraphNode
  edges : List AccountGraphEdge
  programId : String
deriving DecidableEq, Repr

/-- The sort key `node.riskProfile?.confidenceScore || 0` of
`filterGraphForVisualization`. -/
def nodeScore (n : AccountGraphNode) : ℚ :=
  match n.riskProfile with
  | some p => p.confidenceScore
  | none => 0

/-- Insert a node into a list sorted by descending score, after every
element of score ≥ its own (so earlier-listed nodes win ties). -/
def insertByScoreDesc (x : AccountGraphNode) :
    List AccountGraphNode → List AccountGraphNode
  | [] => [x]
  | y :: ys =>
    if nodeScore y > nodeScore x then y :: insertByScoreDesc x ys
    else x :: y :: ys

/-- Stable sort by descending confidence score.  The source calls
`Array.prototype.sort` with comparator `scoreB - scoreA`; that sort is
required to be stable since ES2019, and a stable sort by a fixed key is
extensionally unique, so this insertion sort computes the same list. -/
def sortByScoreDesc : List AccountGraphNode → List AccountGraphNode
  | [] => []
  | x :: xs => insertByScoreDesc x (sortByScoreDesc xs)

/-- JavaScript `l.slice(0, e)`: a negative end index counts from the end of
the list. -/
def jsSliceTo {α : Type} (l : List α) (e : ℤ) : List α :=
  if e < 0 then l.take (l.length - e.natAbs) else l.take e.toNat

/-- `filterGraphForVisualization` from `src/visualization/graph-builder.ts`
(with its default `prioritizeHighRisk = true`): small graphs pass through
unchanged; otherwise keep the program node (the source dereferences it with
a non-null assertion, modelled as `Option`) plus the top `maxNodes − 1`
remaining nodes by descending score, and the edges between retained nodes. -/
def filterGraphForVisualization (graph : AccountGraph) (maxNodes : ℕ) :
    Option AccountGraph :=
  if graph.nodes.length ≤ maxNodes then
    some graph
  else
    match graph.nodes.find? fun n => n.type == NodeType.program with
    | none => none
    | some programNode =>
      let otherNodes := graph.nodes.filter fun n =>
        !(n.type == NodeType.program)
      let sorted := sortByScoreDesc otherNodes
      let selectedNodes := programNode :: jsSliceTo sorted ((maxNodes : ℤ) - 1)
      let selectedNodeIds := selectedNodes.map AccountGraphNode.id
      let selectedEdges := graph.edges.filter fun e =>
        selectedNodeIds.contains e.source &&
          selectedNodeIds.contains e.target
      some { graph with nodes := selectedNodes, edges := selectedEdges }

theorem insertByScoreDesc_perm (x : AccountGraphNode)
    (l : List AccountGraphNode) : (insertByScoreDesc x l).Perm (x :: l) := by
  induction l with
  | nil => exact List.Perm.refl _
  | cons y ys ih =>
    rw [insertByScoreDesc]
    split_ifs
    · exact (ih.cons y).trans (List.Perm.swap x y ys)
    · exact List.Perm.refl _

theorem sortByScoreDesc_perm (l : List AccountGraphNode) :
    (sortByScoreDesc l).Perm l := by
  induction l with
  | nil => exact List.Perm.refl _
  | cons x xs ih =>
    rw [sortByScoreDesc]
    exact (insertByScoreDesc_perm x _).trans (ih.cons x)

theorem insertByScoreDesc_pairwise (x : AccountGraphNode)
    (l : List AccountGraphNode)
    (h : l.Pairwise fun a b => nodeScore b ≤ nodeScore a) :
    (insertByScoreDesc x l).Pairwise
      fun a b => nodeScore b ≤ nodeScore a := by
  induction l with
  | nil => simp [insertByScoreDesc]
  | cons y ys ih =>
    rw [insertByScoreDesc]
    rcases List.pairwise_cons.mp h with ⟨hy, hys⟩
    split_ifs with hgt
    · refine List.pairwise_cons.mpr ⟨?_, ih hys⟩
      intro z hz
      have hz' : z ∈ x :: ys := (insertByScoreDesc_perm x ys).mem_iff.mp hz
      rcases List.mem_cons.mp hz' with rfl | hzys
      · exact le_of_lt hgt
      · exact hy z hzys
    · refine List.pairwise_cons.mpr ⟨?_, h⟩
      intro z hz
      rcases List.mem_cons.mp hz with rfl | hzys
      · exact not_lt.mp hgt
      · exact (hy z hzys).trans (not_lt.mp hgt)

theorem sortByScoreDesc_pairwise (l : List AccountGraphNode) :
    (sortByScoreDesc l).Pairwise fun a b => nodeScore b ≤ nodeScore a := by
  induction l with
  | nil => simp [sortByScoreDesc]
  | cons x xs ih =>
    rw [sortByScoreDesc]
    exact insertByScoreDesc_pairwise x _ ih

theorem insertByScoreDesc_filter_score (x : AccountGraphNode)
    (l : List AccountGraphNode) (v : ℚ) :
    (insertByScoreDesc x l).filter (fun n => decide (nodeScore n = v)) =
      (x :: l).filter fun n => decide (nodeScore n = v) := by
  induction l with
  | nil => rfl
  | cons y ys ih =>
    rw [insertByScoreDesc]
    split_ifs with hgt
    · by_cases hx : nodeScore x = v
      · have hy : ¬nodeScore y = v := by
          rw [← hx]
          exact ne_of_gt hgt
        simp only [List.filter_cons] at ih ⊢
        simp [hx, hy] at ih ⊢
        exact ih
      · simp only [List.filter_cons] at ih ⊢
        simp [hx] at ih ⊢
        rw [ih]
    · rfl

theorem sortByScoreDesc_filter_score (l : List AccountGraphNode) (v : ℚ) :
    (sortByScoreDesc l).filter (fun n => decide (nodeScore n = v)) =
      l.filter fun n => decide (nodeScore n = v) := by
  induction l with
  | nil => rfl
  | cons x xs ih =>
    rw [sortByScoreDesc, insertByScoreDesc_filter_score]
    simp only [List.filter_cons]
    rw [ih]

theorem jsSliceTo_natCast {α : Type} (l : List α) (k : ℕ) :
    jsSliceTo l (k : ℤ) = l.take k := by
  rw [jsSliceTo, if_neg (by omega), Int.toNat_natCast]

theorem length_filter_not_add {α : Type} (l : List α) (p : α → Bool) :
    (l.filter fun a => !p a).length + (l.filter p).length = l.length := by
  induction l with
  | nil => rfl
  | cons a l ih =>
    cases h : p a <;> simp [List.filter_cons, h] <;> omega

/-- C2 counterexample: with cap 0 and a two-node graph (program node plus
one account) the claim demands a result with exactly 0 nodes, but the
filtered graph keeps the program node (`slice(0, -1)` drops from the end),
so it has 1 node. -/
theorem c2_counterexample_cap_zero :
    (filterGraphForVisualization
        ⟨[⟨"prog", "prog", NodeType.program, none⟩,
          ⟨"a1", "a1", NodeType.account, none⟩], [], "prog"⟩ 0).map
      (fun g => g.nodes.length) = some 1 ∧
    ¬((⟨[⟨"prog", "prog", NodeType.program, none⟩,
          ⟨"a1", "a1", NodeType.account, none⟩], [],
        "prog"⟩ : AccountGraph).nodes.length ≤ 0) := by
  constructor
  · rfl
  · decide

/-- C2 (amended): for every graph with exactly one program node and every
cap `C ≥ 1`: if the node count is ≤ C the graph is returned unchanged;
otherwise the result exists, keeps the program node, has exactly C nodes —
the program node followed by the first `C − 1` nodes of the unique stable
descending-score ordering of the others (a permutation of the non-program
nodes, pairwise sorted by descending score, preserving the original order
inside every score class) — and its edges are exactly the original edges
with both endpoints among the retained node ids. -/
theorem c2_filter_graph_for_visualization_spec (G : AccountGraph) (C : ℕ)
    (hC : 1 ≤ C)
    (hprog : (G.nodes.filter fun n => n.type == NodeType.program).length =
      1) :
    (G.nodes.length ≤ C → filterGraphForVisualization G C = some G) ∧
    (C < G.nodes.length →
      ∃ R, filterGraphForVisualization G C = some R ∧
        ∃ (p : AccountGraphNode) (S : List AccountGraphNode),
          p ∈ G.nodes ∧ p.type = NodeType.program ∧
          S.Perm (G.nodes.filter fun n => !(n.type == NodeType.program)) ∧
          (S.Pairwise fun a b => nodeScore b ≤ nodeScore a) ∧
          (∀ v : ℚ, S.filter (fun n => decide (nodeScore n = v)) =
            (G.nodes.filter fun n => !(n.type == NodeType.program)).filter
              fun n => decide (nodeScore n = v)) ∧
          R.nodes = p :: S.take (C - 1) ∧
          R.nodes.length = C ∧
          (∀ e, e ∈ R.edges ↔ e ∈ G.edges ∧
            e.source ∈ R.nodes.map AccountGraphNode.id ∧
            e.target ∈ R.nodes.map AccountGraphNode.id) ∧
          R.programId = G.programId) := by
  constructor
  · intro hle
    rw [filterGraphForVisualization, if_pos hle]
  · intro hlt
    have hnle : ¬G.nodes.length ≤ C := not_le.mpr hlt
    obtain ⟨p0, hp0mem, hp0⟩ :
        ∃ n ∈ G.nodes, (n.type == NodeType.program) = true := by
      rcases hfil : G.nodes.filter fun n => n.type == NodeType.program with
        _ | ⟨q, rest⟩
      · rw [hfil] at hprog
        simp at hprog
      · have hq : q ∈ G.nodes.filter fun n => n.type == NodeType.program := by
          rw [hfil]
          exact List.mem_cons_self q rest
        exact ⟨q, (List.mem_filter.mp hq).1, (List.mem_filter.mp hq).2⟩
    obtain ⟨p, hfind⟩ :
        ∃ p, (G.nodes.find? fun n => n.type == NodeType.program) = some p := by
      cases hf : G.nodes.find? fun n => n.type == NodeType.program with
      | some p => exact ⟨p, rfl⟩
      | none =>
        have hnone : ¬(p0.type == NodeType.program) = true :=
          List.find?_eq_none.mp hf p0 hp0mem
        exact absurd hp0 hnone
    have hpmem : p ∈ G.nodes := List.mem_of_find?_eq_some hfind
    have hptype : p.type = NodeType.program := by
      simpa using List.find?_some hfind
    have hslice :
        jsSliceTo (sortByScoreDesc (G.nodes.filter fun n =>
          !(n.type == NodeType.program))) ((C : ℤ) - 1) =
          (sortByScoreDesc (G.nodes.filter fun n =>
            !(n.type == NodeType.program))).take (C - 1) := by
      have hcast : ((C : ℤ) - 1) = ((C - 1 : ℕ) : ℤ) := by omega
      rw [hcast, jsSliceTo_natCast]
    have hlen : (sortByScoreDesc (G.nodes.filter fun n =>
        !(n.type == NodeType.program))).length = G.nodes.length - 1 := by
      rw [(sortByScoreDesc_perm _).length_eq]
      have := length_filter_not_add G.nodes fun n =>
        n.type == NodeType.program
      omega
    have heq : filterGraphForVisualization G C =
        some ⟨p :: jsSliceTo (sortByScoreDesc (G.nodes.filter fun n =>
            !(n.type == NodeType.program))) ((C : ℤ) - 1),
          G.edges.filter fun e =>
            ((p :: jsSliceTo (sortByScoreDesc (G.nodes.filter fun n =>
                !(n.type == NodeType.program))) ((C : ℤ) - 1)).map
              AccountGraphNode.id).contains e.source &&
            ((p :: jsSliceTo (sortByScoreDesc (G.nodes.filter fun n =>
                !(n.type == NodeType.program))) ((C : ℤ) - 1)).map
              AccountGraphNode.id).contains e.target,
          G.programId⟩ := by
      rw [filterGraphForVisualization, if_neg hnle, hfind]
    refine ⟨_, heq, p, sortByScoreDesc (G.nodes.filter fun n =>
        !(n.type == NodeType.program)), hpmem, hptype,
      sortByScoreDesc_perm _, sortByScoreDesc_pairwise _,
      (fun v => sortByScoreDesc_filter_score _ v), ?_, ?_, ?_, rfl⟩
    · rw [hslice]
    · simp only [List.length_cons, hslice, List.length_take, hlen]
      omega
    · intro e
      simp only [List.mem_filter, Bool.and_eq_true, List.contains,
        List.elem_iff]

/-- Witness for C2: a two-node graph under cap 2 passes through unchanged. -/
theorem c2_filter_graph_for_visualization_spec_witness :
    filterGraphForVisualization
      ⟨[⟨"prog", "prog", NodeType.program, none⟩,
        ⟨"a1", "a1", NodeType.account, none⟩], [], "prog"⟩ 2 =
      some ⟨[⟨"prog", "prog", NodeType.program, none⟩,
        ⟨"a1", "a1", NodeType.account, none⟩], [], "prog"⟩ :=
  (c2_filter_graph_for_visualization_spec
    ⟨[⟨"prog", "prog", NodeType.program, none⟩,
      ⟨"a1", "a1", NodeType.account, none⟩], [], "prog"⟩ 2
    (by decide) (by decide)).1 (by decide)
